import Mathlib

/-!
Verification of the natural-language specification of langflow's
debug/event-recording facility (`src/lfx/debug/event_recorder.py`),
MCP configuration utilities (`src/backend/base/langflow/api/utils/mcp/config_utils.py`)
and the prompt component (`src/lfx/components/processing/prompt.py`),
as a shallow embedding in Lean 4.

Python dictionaries are embedded as association lists, Python `None` for an
optional attribute as `Option.none`, and `int` as `Int` (or `Nat` where the
source value is a port number).  Methods that mutate `self` are embedded as
functions from the object state to the new object state.
-/

/- ===================== Python primitives ===================== -/

/-- Embedding of `d.get(k)` on a Python dict (association list, unique keys). -/
def pyGet {β : Type} (d : List (String × β)) (k : String) : Option β :=
  (d.find? (fun kv => kv.1 == k)).map (fun kv => kv.2)

/-- Embedding of `d.get(k, dflt)` on a Python dict. -/
def pyGetD {β : Type} (d : List (String × β)) (k : String) (dflt : β) : β :=
  (pyGet d k).getD dflt

/-- Python truthiness of an optional string attribute: `None` and the empty
string are falsy, every other string is truthy. -/
def pyTruthyOptStr : Option String → Bool
  | none => false
  | some s => !s.isEmpty

/-- Embedding of the Python substring test `pat in s` on strings (contiguous
occurrence), at the character-list level. -/
def strOccurs (pat : List Char) : List Char → Bool
  | [] => pat.isEmpty
  | c :: rest => pat.isPrefixOf (c :: rest) || strOccurs pat rest

/-- Embedding of the Python substring test `needle in hay`. -/
def pyContains (hay needle : String) : Bool :=
  strOccurs needle.data hay.data

/- ===================== Event model ===================== -/

/-- Modelled from the spec: a "Mutation event" is "a record emitted by the
(external) graph engine describing a state change during execution, consumed
here purely for observation/debugging".  The class `GraphMutationEvent` itself
lives outside the excerpted sources (it is only imported under
`TYPE_CHECKING`), so its fields are modelled from how `event_recorder.py`
reads them: `vertex_id` (possibly `None`), `event_type`, `step`, `timing`,
and the two dictionaries `changes` and `state_after` (of which only the
`"queue"` key, a list of vertex ids, is ever read). -/
structure GraphMutationEvent where
  vertex_id : Option String
  event_type : String
  step : Int
  timing : String
  changes : List (String × String)
  state_after : List (String × List String)
deriving DecidableEq, Repr

/- ===================== EventBasedRecording ===================== -/

/-- Embedding of the dataclass `EventBasedRecording` from
`src/lfx/debug/event_recorder.py`. -/
structure EventBasedRecording where
  flow_name : String
  events : List GraphMutationEvent := []
  component_executions : List String := []
deriving Repr

/-- Embedding of `EventBasedRecording.get_events_for_vertex`:
`[e for e in self.events if e.vertex_id == vertex_id]`. -/
def EventBasedRecording.get_events_for_vertex (r : EventBasedRecording)
    (vertex_id : String) : List GraphMutationEvent :=
  r.events.filter (fun e => e.vertex_id == some vertex_id)

/-- Embedding of `EventBasedRecording.get_events_by_type`:
`[e for e in self.events if e.event_type == event_type]`. -/
def EventBasedRecording.get_events_by_type (r : EventBasedRecording)
    (event_type : String) : List GraphMutationEvent :=
  r.events.filter (fun e => e.event_type == event_type)

/-- One entry of the list returned by `get_queue_evolution`. -/
structure QueueEvolutionEntry where
  step : Int
  event : String
  queue : List String
  changes : List (String × String)
deriving DecidableEq, Repr

/-- The dictionary built for one event inside `get_queue_evolution`. -/
def queueEntryOf (e : GraphMutationEvent) : QueueEvolutionEntry :=
  { step := e.step
    event := e.event_type
    queue := pyGetD e.state_after "queue" []
    changes := e.changes }

/-- Embedding of `EventBasedRecording.get_queue_evolution`: concatenate the
`"queue_extended"` and `"queue_dequeued"` events, sort them (stably, as
Python's `list.sort` does) by `step`, and build an entry for each sorted
event whose `timing` is `"after"`. -/
def EventBasedRecording.get_queue_evolution (r : EventBasedRecording) :
    List QueueEvolutionEntry :=
  let queue_events :=
    r.get_events_by_type "queue_extended" ++ r.get_events_by_type "queue_dequeued"
  let sorted_events := queue_events.mergeSort (fun a b => a.step ≤ b.step)
  (sorted_events.filter (fun e => e.timing == "after")).map queueEntryOf

/-- One entry of the list returned by `get_dependency_changes`. -/
structure DependencyChangeEntry where
  step : Int
  vertex : Option String
  predecessor : Option String
  run_predecessors_changed : Option String
  run_map_changed : Option String
deriving DecidableEq, Repr

/-- The dictionary built for one event inside `get_dependency_changes`. -/
def depEntryOf (e : GraphMutationEvent) : DependencyChangeEntry :=
  { step := e.step
    vertex := e.vertex_id
    predecessor := pyGet e.changes "predecessor"
    run_predecessors_changed := pyGet e.changes "run_predecessors_changed"
    run_map_changed := pyGet e.changes "run_map_changed" }

/-- Embedding of `EventBasedRecording.get_dependency_changes`: take the
`"dependency_added"` events and build an entry for each one whose `timing`
is `"after"`. -/
def EventBasedRecording.get_dependency_changes (r : EventBasedRecording) :
    List DependencyChangeEntry :=
  ((r.get_events_by_type "dependency_added").filter
      (fun e => e.timing == "after")).map depEntryOf

/- ===================== EventRecorder ===================== -/

/-- Embedding of the class `EventRecorder` (its mutable state). -/
structure EventRecorder where
  flow_name : String
  events : List GraphMutationEvent
  component_executions : List String
deriving Repr

/-- Embedding of `EventRecorder.__init__`. -/
def EventRecorder.mk' (flow_name : String := "Recording") : EventRecorder :=
  { flow_name := flow_name, events := [], component_executions := [] }

/-- Embedding of the observer callback `EventRecorder.on_event`.  The call
mutates `self` (appending to `self.events`, and to
`self.component_executions` when `event.vertex_id` is truthy and not yet
present); the result is the pair of the post-call recorder state and the
post-call state of the `event` object handed to the callback (the method
contains no assignment to any attribute of `event`). -/
def EventRecorder.on_event (r : EventRecorder) (event : GraphMutationEvent) :
    EventRecorder × GraphMutationEvent :=
  let r1 : EventRecorder := { r with events := r.events ++ [event] }
  let r2 : EventRecorder :=
    match event.vertex_id with
    | some v =>
        if !v.isEmpty && !(r1.component_executions.contains v) then
          { r1 with component_executions := r1.component_executions ++ [v] }
        else r1
    | none => r1
  (r2, event)

/-- Embedding of `EventRecorder.get_recording`. -/
def EventRecorder.get_recording (r : EventRecorder) : EventBasedRecording :=
  { flow_name := r.flow_name
    events := r.events
    component_executions := r.component_executions }

/-- Delivering a sequence of events to a recorder, one `on_event` call per
event, in order. -/
def deliverAll (r : EventRecorder) (es : List GraphMutationEvent) : EventRecorder :=
  es.foldl (fun r e => (r.on_event e).1) r

/- ===================== Helper lemmas: the recorder fold ===================== -/

theorem deliverAll_nil (r : EventRecorder) : deliverAll r [] = r := rfl

theorem deliverAll_append (r : EventRecorder) (es : List GraphMutationEvent)
    (e : GraphMutationEvent) :
    deliverAll r (es ++ [e]) = ((deliverAll r es).on_event e).1 := by
  simp [deliverAll, List.foldl_append]

theorem on_event_fst_events (r : EventRecorder) (e : GraphMutationEvent) :
    (r.on_event e).1.events = r.events ++ [e] := by
  unfold EventRecorder.on_event
  cases e.vertex_id with
  | none => rfl
  | some v =>
      simp only []
      split <;> rfl

theorem on_event_fst_flow_name (r : EventRecorder) (e : GraphMutationEvent) :
    (r.on_event e).1.flow_name = r.flow_name := by
  unfold EventRecorder.on_event
  cases e.vertex_id with
  | none => rfl
  | some v =>
      simp only []
      split <;> rfl

theorem deliverAll_events (r : EventRecorder) (es : List GraphMutationEvent) :
    (deliverAll r es).events = r.events ++ es := by
  induction es using List.reverseRecOn with
  | nil => simp [deliverAll_nil]
  | append_singleton es e ih =>
      rw [deliverAll_append, on_event_fst_events, ih, List.append_assoc]

/- ===================== C1 ===================== -/

/-- C1: the recorder replays events without loss or alteration: for every
sequence of mutation events delivered to a fresh `EventRecorder` via
`on_event`, the recording returned by `get_recording` has its `events` field
equal to exactly that sequence, in delivery order, with no event dropped,
duplicated, reordered, or replaced. -/
theorem C1_recorder_replays_exactly (flow_name : String)
    (es : List GraphMutationEvent) :
    (deliverAll (EventRecorder.mk' flow_name) es).get_recording.events = es := by
  rw [EventRecorder.get_recording, deliverAll_events]
  rfl

/- ===================== C4 ===================== -/

/-- C4: for every `EventBasedRecording` and vertex id `v`,
`get_events_for_vertex v` returns exactly the recorded events whose
`vertex_id` equals `v` (same multiplicity), preserving their recorded order
(the result is a sublist of `events`); events with a different or absent
`vertex_id` never appear in the result. -/
theorem C4_events_for_vertex (r : EventBasedRecording) (v : String) :
    (r.get_events_for_vertex v).Sublist r.events
    ∧ (∀ e, e ∈ r.get_events_for_vertex v ↔ e ∈ r.events ∧ e.vertex_id = some v)
    ∧ (∀ e, (r.get_events_for_vertex v).count e =
        if e.vertex_id = some v then r.events.count e else 0) := by
  refine ⟨List.filter_sublist _, ?_, ?_⟩
  · intro e
    simp [EventBasedRecording.get_events_for_vertex, List.mem_filter]
  · intro e
    by_cases h : e.vertex_id = some v
    · rw [if_pos h]
      exact List.count_filter (by simp [h])
    · rw [if_neg h]
      refine List.count_eq_zero.mpr ?_
      intro hmem
      have := (List.mem_filter.mp hmem).2
      exact h (by simpa using this)

/- ===================== C3 ===================== -/

/-- C3: dependency-change reconstruction: `get_dependency_changes` returns one
entry for each recorded event whose `event_type` is `"dependency_added"` and
whose `timing` is `"after"` (carrying that event's `step`, `vertex_id`, and
the `predecessor`, `run_predecessors_changed` and `run_map_changed` values
from its `changes`), in recorded order, and no entry for events of any other
type. -/
theorem C3_dependency_changes (r : EventBasedRecording) :
    r.get_dependency_changes =
      (r.events.filter (fun e =>
        e.event_type == "dependency_added" && e.timing == "after")).map depEntryOf := by
  unfold EventBasedRecording.get_dependency_changes EventBasedRecording.get_events_by_type
  rw [List.filter_filter]
  congr 1
  exact List.filter_congr (fun a _ => Bool.and_comm _ _)

/- ===================== C2 ===================== -/

/-- Splitting a filter on a disjunction of mutually exclusive predicates into
the concatenation of the two filters, up to permutation. -/
theorem filter_or_split_perm {α : Type} (p q : α → Bool) (l : List α)
    (h : ∀ a, ¬(p a = true ∧ q a = true)) :
    (l.filter (fun a => p a || q a)).Perm (l.filter p ++ l.filter q) := by
  induction l with
  | nil => simp
  | cons a l ih =>
      by_cases hp : p a = true
      · have hq : q a = false := by
          rcases Bool.eq_false_or_eq_true (q a) with h' | h'
          · exact absurd ⟨hp, h'⟩ (h a)
          · exact h'
        simpa [List.filter_cons, hp, hq] using ih.cons a
      · have hp' : p a = false := Bool.eq_false_iff.mpr hp
        by_cases hq : q a = true
        · simp only [List.filter_cons, hp', hq, Bool.false_or, cond_true, cond_false]
          exact (ih.cons a).trans List.perm_middle.symm
        · have hq' : q a = false := Bool.eq_false_iff.mpr hq
          simpa [List.filter_cons, hp', hq'] using ih

/-- C2: queue-evolution reconstruction: `get_queue_evolution` returns one
entry for each recorded event whose `event_type` is `"queue_extended"` or
`"queue_dequeued"` and whose `timing` is `"after"` (carrying that event's
`step`, `event_type`, the queue from its `state_after`, and its `changes`),
and the returned entries are ordered by nondecreasing `step`. -/
theorem C2_queue_evolution (r : EventBasedRecording) :
    (r.get_queue_evolution).Perm
      ((r.events.filter (fun e =>
          (e.event_type == "queue_extended" || e.event_type == "queue_dequeued")
          && e.timing == "after")).map queueEntryOf)
    ∧ List.Pairwise (fun x y => x.step ≤ y.step) r.get_queue_evolution := by
  constructor
  · unfold EventBasedRecording.get_queue_evolution
    apply List.Perm.map
    have hms := List.mergeSort_perm
      (r.get_events_by_type "queue_extended" ++ r.get_events_by_type "queue_dequeued")
      (fun a b => a.step ≤ b.step)
    refine (hms.filter (fun e => e.timing == "after")).trans ?_
    rw [List.filter_append]
    unfold EventBasedRecording.get_events_by_type
    rw [List.filter_filter, List.filter_filter]
    have hdisj : ∀ e : GraphMutationEvent,
        ¬((e.timing == "after" && e.event_type == "queue_extended") = true ∧
          (e.timing == "after" && e.event_type == "queue_dequeued") = true) := by
      intro e ⟨h1, h2⟩
      have e1 : e.event_type = "queue_extended" := by
        have h1' := (Bool.and_eq_true _ _).mp h1
        simpa using h1'.2
      have e2 : e.event_type = "queue_dequeued" := by
        have h2' := (Bool.and_eq_true _ _).mp h2
        simpa using h2'.2
      rw [e1] at e2
      exact absurd e2 (by decide)
    refine ((filter_or_split_perm _ _ r.events hdisj).symm).trans ?_
    have : ∀ e ∈ r.events,
        ((e.timing == "after" && e.event_type == "queue_extended")
          || (e.timing == "after" && e.event_type == "queue_dequeued"))
        = ((e.event_type == "queue_extended" || e.event_type == "queue_dequeued")
          && e.timing == "after") := by
      intro e _
      cases e.timing == "after" <;> cases e.event_type == "queue_extended"
        <;> cases e.event_type == "queue_dequeued" <;> rfl
    rw [List.filter_congr this]
  · unfold EventBasedRecording.get_queue_evolution
    refine List.Pairwise.map (R := fun a b : GraphMutationEvent => a.step ≤ b.step)
      queueEntryOf (fun a b hab => ?_) ?_
    · simpa [queueEntryOf] using hab
    · apply List.Pairwise.filter
      have hsorted := @List.sorted_mergeSort GraphMutationEvent
        (fun a b : GraphMutationEvent => decide (a.step ≤ b.step))
        (fun a b c hab hbc => by
          simp only [decide_eq_true_eq] at *
          exact le_trans hab hbc)
        (fun a b => by
          simp only [Bool.or_eq_true, decide_eq_true_eq]
          exact le_total a.step b.step)
        (r.get_events_by_type "queue_extended" ++ r.get_events_by_type "queue_dequeued")
      exact hsorted.imp (fun h => by simpa using h)

/- ===================== C5 ===================== -/

/-- C5: observation is pure with respect to the observed event:
`EventRecorder.on_event` never modifies any field of the event it receives —
the post-call event equals the delivered event, field by field — and the
only recorder state it changes is the `events` and `component_executions`
lists (`flow_name` is unchanged). -/
theorem C5_on_event_preserves_event (r : EventRecorder) (e : GraphMutationEvent) :
    (r.on_event e).2 = e
    ∧ (r.on_event e).2.vertex_id = e.vertex_id
    ∧ (r.on_event e).2.event_type = e.event_type
    ∧ (r.on_event e).2.step = e.step
    ∧ (r.on_event e).2.timing = e.timing
    ∧ (r.on_event e).2.changes = e.changes
    ∧ (r.on_event e).2.state_after = e.state_after
    ∧ (r.on_event e).1.flow_name = r.flow_name := by
  refine ⟨rfl, rfl, rfl, rfl, rfl, rfl, rfl, on_event_fst_flow_name r e⟩

/- ===================== MCPServerValidationResult ===================== -/

/-- An MCP server configuration entry as the validation code reads it: the
server's config dict, of which `validate_mcp_server_for_project` reads the
`"args"` list (defaulting to `[]`) and stores the whole entry. -/
structure MCPServerConfig where
  command : String := ""
  args : List String := []
deriving DecidableEq, Repr

/-- Embedding of the class `MCPServerValidationResult` from
`src/backend/base/langflow/api/utils/mcp/config_utils.py`.  Its `__init__`
declares every parameter keyword-only; `server_exists` and
`project_id_matches` have no default (the remaining fields default to `""`,
`None` and `""` as in the source).  A constructor call is embedded by
`mkValidationResult` below, which raises when a required keyword is
missing. -/
structure MCPServerValidationResult where
  server_exists : Bool
  project_id_matches : Bool
  server_name : String := ""
  existing_config : Option MCPServerConfig := none
  conflict_message : String := ""
deriving DecidableEq, Repr

/-- Embedding of the property `MCPServerValidationResult.has_conflict`:
`self.server_exists and not self.project_id_matches`. -/
def MCPServerValidationResult.has_conflict (r : MCPServerValidationResult) : Bool :=
  r.server_exists && !r.project_id_matches

/-- Embedding of the property `MCPServerValidationResult.should_skip`:
`self.server_exists and self.project_id_matches`. -/
def MCPServerValidationResult.should_skip (r : MCPServerValidationResult) : Bool :=
  r.server_exists && r.project_id_matches

/-- Embedding of the property `MCPServerValidationResult.should_proceed`:
`not self.server_exists or self.project_id_matches`. -/
def MCPServerValidationResult.should_proceed (r : MCPServerValidationResult) : Bool :=
  !r.server_exists || r.project_id_matches

/- ===================== C6 ===================== -/

/-- C6: for every `MCPServerValidationResult`: `should_proceed` holds iff
`has_conflict` does not; `should_skip` implies `should_proceed`;
`has_conflict` and `should_skip` are never both true; and exactly one of the
three outcomes — conflict (abort), skip (already configured), or proceed
with creation (`should_proceed` with no existing server to skip) — is
authorized. -/
theorem C6_validation_decision (r : MCPServerValidationResult) :
    (r.should_proceed = true ↔ r.has_conflict = false)
    ∧ (r.should_skip = true → r.should_proceed = true)
    ∧ ¬(r.has_conflict = true ∧ r.should_skip = true)
    ∧ List.count true [r.has_conflict, r.should_skip, r.should_proceed && !r.should_skip] = 1 := by
  obtain ⟨se, pm, sn, ec, cm⟩ := r
  cases se <;> cases pm <;>
    simp [MCPServerValidationResult.has_conflict, MCPServerValidationResult.should_skip,
      MCPServerValidationResult.should_proceed, List.count_cons]

/- ===================== validate_mcp_server_for_project ===================== -/

/-- The conflict message built inside `validate_mcp_server_for_project` when
`project_id_matches` is false, by operation kind. -/
def conflictMessageFor (operation server_name project_name project_id : String) : String :=
  if operation == "create" then
    "MCP server name conflict: \x27" ++ server_name ++
      "\x27 already exists for a different project. Cannot create MCP server for project \x27" ++
      project_name ++ "\x27 (ID: " ++ project_id ++ ")"
  else if operation == "update" then
    "MCP server name conflict: \x27" ++ server_name ++
      "\x27 exists for a different project. Cannot update MCP server for project \x27" ++
      project_name ++ "\x27 (ID: " ++ project_id ++ ")"
  else if operation == "delete" then
    "MCP server \x27" ++ server_name ++
      "\x27 exists for a different project. Cannot delete MCP server for project \x27" ++
      project_name ++ "\x27 (ID: " ++ project_id ++ ")"
  else ""

/-- The `TypeError` raised by a `MCPServerValidationResult(...)` call that
omits the required keyword-only argument `project_id_matches`. -/
def typeErrorProjectIdMatches : String :=
  "TypeError: MCPServerValidationResult.__init__ missing 1 required keyword-only argument: project_id_matches"

/-- Embedding of a `MCPServerValidationResult(...)` constructor call with the
keyword arguments the call site actually supplies.  `__init__` declares
`project_id_matches` keyword-only with no default, so a call omitting it
(`project_id_matches = none` here) raises a `TypeError` instead of
constructing a result. -/
def mkValidationResult (server_exists : Bool) (project_id_matches : Option Bool)
    (server_name : String) (existing_config : Option MCPServerConfig)
    (conflict_message : String) : Except String MCPServerValidationResult :=
  match project_id_matches with
  | none => .error typeErrorProjectIdMatches
  | some pim =>
      .ok { server_exists := server_exists
            project_id_matches := pim
            server_name := server_name
            existing_config := existing_config
            conflict_message := conflict_message }

/-- Embedding of `validate_mcp_server_for_project`.  The external pieces are
parameters: `sanitize` stands for `sanitize_mcp_name` (imported from
`lfx.base.mcp.util`, outside the excerpted sources), `maxLen` for the
constant `MAX_MCP_SERVER_NAME_LENGTH` (from `lfx.base.mcp.constants`), and
`listing` for the outcome of `await get_server_list(...)`; `project_id` is
`str(project_id)` of the UUID argument.  The result is `Except`: `.error`
models an exception propagating out of the function.  The `try` body runs
first; every operation in it other than `get_server_list` and the
constructor calls is a total guarded dict/list/string operation.  If the
body raises — because `get_server_list` raised, or because the
server-absent `return`'s constructor call omits the required
`project_id_matches` — control reaches `except Exception`, whose own
constructor call also omits `project_id_matches` and therefore raises a
`TypeError` that propagates. -/
def validate_mcp_server_for_project (sanitize : String → String) (maxLen : Nat)
    (project_id : String) (project_name : String)
    (listing : Except String (List (String × List (String × MCPServerConfig))))
    (operation : String) : Except String MCPServerValidationResult :=
  let server_name := "lf-" ++ (sanitize project_name).take (maxLen - 4)
  let try_body : Except String MCPServerValidationResult :=
    match listing with
    | .error e => .error e
    | .ok existing_servers =>
        match pyGet (pyGetD existing_servers "mcpServers" []) server_name with
        | none =>
            mkValidationResult false none server_name none ""
        | some existing_server_config =>
            let existing_args := existing_server_config.args
            let project_id_matches :=
              match existing_args.getLast? with
              | some existing_sse_url => pyContains existing_sse_url project_id
              | none => false
            let conflict_message :=
              if project_id_matches then ""
              else conflictMessageFor operation server_name project_name project_id
            mkValidationResult true (some project_id_matches) server_name
              (some existing_server_config) conflict_message
  match try_body with
  | .ok r => .ok r
  | .error _ => mkValidationResult false none server_name none ""

/- ===================== C7 ===================== -/

/-- C7: the claim states the code's documented intent (the handler's comment
reads "Return result allowing operation to proceed on validation failure"),
but the code raises instead: `__init__` declares `project_id_matches`
keyword-only with no default, and the constructor calls on the
except-Exception path (config_utils.py lines 167-170) and on the
server-absent path (lines 120-123) omit it.  So whenever listing the
servers raises — and likewise whenever the server does not exist —
`validate_mcp_server_for_project` propagates a `TypeError` rather than
returning an `MCPServerValidationResult` with `server_exists = false`. -/
theorem C7_validate_error_raises (sanitize : String → String) (maxLen : Nat)
    (project_id project_name operation msg : String) :
    validate_mcp_server_for_project sanitize maxLen project_id project_name
        (Except.error msg) operation = Except.error typeErrorProjectIdMatches
    ∧ validate_mcp_server_for_project sanitize maxLen project_id project_name
        (Except.ok []) operation = Except.error typeErrorProjectIdMatches :=
  ⟨rfl, rfl⟩

/- ===================== PromptComponent ===================== -/

/-- A `Message` (`lfx.schema.message`) as `build_prompt` reads it: only its
`text` attribute is used. -/
structure LfxMessage where
  text : String
deriving DecidableEq, Repr

/-- The state of a `PromptComponent` as read and written by `build_prompt`:
the optional `mode` attribute (`none` models `not hasattr(self, "mode")`),
the component's `_attributes` (opaque here, of type `α`), and the `status`
field the method assigns. -/
structure PromptComponentState (α : Type) where
  mode : Option String
  attributes : α
  status : String

/-- Embedding of `PromptComponent.build_prompt`.  The parameter `f` stands
for the external `Message.from_template_and_variables`, as a function of the
`template_format` argument and the keyword-splatted `self._attributes`.  The
result is the post-call component state and the returned prompt. -/
def build_prompt {α : Type} (f : String → α → LfxMessage)
    (c : PromptComponentState α) : PromptComponentState α × LfxMessage :=
  let mode := c.mode.getD "\x7bvariable\x7d"
  let template_format := if mode == "\x7b\x7bvariable\x7d\x7d" then "mustache" else "f-string"
  let prompt := f template_format c.attributes
  ({ c with status := prompt.text }, prompt)

/- ===================== C9 ===================== -/

/-- C9: `build_prompt` selects the template format from the `mode` field: it
builds the prompt with format `"mustache"` exactly when `mode` equals
`"\x7b\x7bvariable\x7d\x7d"`, and with format `"f-string"` in every other
case, including when the component has no `mode` attribute; it then sets the
component's `status` to the built prompt's `text` and returns the prompt. -/
theorem C9_build_prompt_mode {α : Type} (f : String → α → LfxMessage)
    (c : PromptComponentState α) :
    build_prompt f c =
      (let fmt := if c.mode = some "\x7b\x7bvariable\x7d\x7d" then "mustache" else "f-string"
       let prompt := f fmt c.attributes
       ({ c with status := prompt.text }, prompt)) := by
  unfold build_prompt
  cases hm : c.mode with
  | none => simp
  | some s =>
      by_cases hs : s = "\x7b\x7bvariable\x7d\x7d" <;> simp [hs]

/- ===================== C10 ===================== -/

/-- The change `on_event` makes to `component_executions` when the event has
no vertex id. -/
theorem on_event_fst_ce_none (r : EventRecorder) (e : GraphMutationEvent)
    (h : e.vertex_id = none) :
    (r.on_event e).1.component_executions = r.component_executions := by
  unfold EventRecorder.on_event
  rw [h]

/-- The change `on_event` makes to `component_executions` when the event has
a vertex id. -/
theorem on_event_fst_ce_some (r : EventRecorder) (e : GraphMutationEvent)
    (v : String) (h : e.vertex_id = some v) :
    (r.on_event e).1.component_executions =
      (if !v.isEmpty && !(r.component_executions.contains v) then
        r.component_executions ++ [v]
      else r.component_executions) := by
  unfold EventRecorder.on_event
  rw [h]
  simp only []
  split <;> rfl

/-- Index of the first delivered event carrying vertex id `v` (length of
`es` when there is none). -/
def firstEventIdx (es : List GraphMutationEvent) (v : String) : Nat :=
  es.findIdx (fun e => e.vertex_id == some v)

/-- Spec-side statement of the C10 invariant: `ce` is duplicate-free,
contains exactly the non-empty vertex ids appearing in at least one event of
`es`, and is ordered by the index of each id's first event. -/
def componentExecInvariant (es : List GraphMutationEvent) (ce : List String) : Prop :=
  ce.Nodup
  ∧ (∀ v : String, v ∈ ce ↔ (v ≠ "" ∧ ∃ x ∈ es, x.vertex_id = some v))
  ∧ List.Pairwise (fun a b => firstEventIdx es a < firstEventIdx es b) ce

theorem findIdx_append_of_found {α : Type} (p : α → Bool) (l₁ l₂ : List α)
    (h : ∃ x ∈ l₁, p x = true) :
    (l₁ ++ l₂).findIdx p = l₁.findIdx p := by
  rw [List.findIdx_append, if_pos (List.findIdx_lt_length.mpr h)]

theorem exists_vertex_append (es : List GraphMutationEvent) (e : GraphMutationEvent)
    (w : String) :
    (∃ x ∈ es ++ [e], x.vertex_id = some w) ↔
      (∃ x ∈ es, x.vertex_id = some w) ∨ e.vertex_id = some w := by
  constructor
  · rintro ⟨x, hx, hvx⟩
    rcases List.mem_append.mp hx with h | h
    · exact Or.inl ⟨x, h, hvx⟩
    · rcases List.mem_singleton.mp h with rfl
      exact Or.inr hvx
  · rintro (⟨x, hx, hvx⟩ | hv)
    · exact ⟨x, List.mem_append.mpr (Or.inl hx), hvx⟩
    · exact ⟨e, List.mem_append.mpr (Or.inr (List.mem_singleton.mpr rfl)), hv⟩

theorem firstEventIdx_append_of_found (es : List GraphMutationEvent)
    (e : GraphMutationEvent) (a : String) (h : ∃ x ∈ es, x.vertex_id = some a) :
    firstEventIdx (es ++ [e]) a = firstEventIdx es a := by
  apply findIdx_append_of_found
  obtain ⟨x, hx, hvx⟩ := h
  exact ⟨x, hx, by simp [hvx]⟩

theorem firstEventIdx_lt_of_found (es : List GraphMutationEvent) (a : String)
    (h : ∃ x ∈ es, x.vertex_id = some a) :
    firstEventIdx es a < es.length := by
  apply List.findIdx_lt_length.mpr
  obtain ⟨x, hx, hvx⟩ := h
  exact ⟨x, hx, by simp [hvx]⟩

theorem firstEventIdx_append_new (es : List GraphMutationEvent)
    (e : GraphMutationEvent) (v : String)
    (hnf : ∀ x ∈ es, ¬x.vertex_id = some v) (hv : e.vertex_id = some v) :
    firstEventIdx (es ++ [e]) v = es.length := by
  rw [firstEventIdx, List.findIdx_append]
  have h1 : es.findIdx (fun x => x.vertex_id == some v) = es.length :=
    List.findIdx_eq_length.mpr (fun x hx => by simpa using hnf x hx)
  rw [if_neg (by rw [h1]; exact lt_irrefl _)]
  simp [List.findIdx_cons, hv, h1]

/-- C10: `EventRecorder.component_executions` is duplicate-free and ordered
by first occurrence: after any sequence of `on_event` calls on a fresh
recorder, `component_executions` contains each non-empty `vertex_id` that
appeared in at least one event exactly once, in the order its first event
was delivered, and contains nothing else; the invariant holds after every
`on_event` call, i.e. for every delivered prefix. -/
theorem C10_component_executions_invariant (flow_name : String)
    (es : List GraphMutationEvent) :
    componentExecInvariant es
      (deliverAll (EventRecorder.mk' flow_name) es).component_executions := by
  induction es using List.reverseRecOn with
  | nil =>
      refine ⟨List.nodup_nil, ?_, List.Pairwise.nil⟩
      intro v
      simp [deliverAll_nil, EventRecorder.mk']
  | append_singleton es e ih =>
      obtain ⟨hnd, hmem, hord⟩ := ih
      rw [componentExecInvariant, deliverAll_append]
      cases hv : e.vertex_id with
      | none =>
          rw [on_event_fst_ce_none _ _ hv]
          refine ⟨hnd, ?_, ?_⟩
          · intro w
            rw [hmem w, exists_vertex_append, hv]
            simp
          · refine hord.imp_of_mem ?_
            intro a b ha hb hab
            rw [firstEventIdx_append_of_found es e a ((hmem a).mp ha).2,
              firstEventIdx_append_of_found es e b ((hmem b).mp hb).2]
            exact hab
      | some v =>
          rw [on_event_fst_ce_some _ _ v hv]
          by_cases hvE : v = ""
          · subst hvE
            rw [if_neg (fun hcond => by
              have h1 := ((Bool.and_eq_true _ _).mp hcond).1
              rw [show ("".isEmpty) = true from rfl] at h1
              exact absurd h1 (by decide))]
            refine ⟨hnd, ?_, ?_⟩
            · intro w
              rw [hmem w, exists_vertex_append, hv]
              constructor
              · rintro ⟨hw, h⟩; exact ⟨hw, Or.inl h⟩
              · rintro ⟨hw, h | h⟩
                · exact ⟨hw, h⟩
                · exact absurd (Option.some_injective _ h.symm) hw
            · refine hord.imp_of_mem ?_
              intro a b ha hb hab
              rw [firstEventIdx_append_of_found es e a ((hmem a).mp ha).2,
                firstEventIdx_append_of_found es e b ((hmem b).mp hb).2]
              exact hab
          · by_cases hvc : v ∈ (deliverAll (EventRecorder.mk' flow_name) es).component_executions
            · rw [if_neg (fun hcond => by
                have h2 := ((Bool.and_eq_true _ _).mp hcond).2
                have h3 : ((deliverAll (EventRecorder.mk' flow_name) es).component_executions.contains v) = true :=
                  List.elem_iff.mpr hvc
                rw [h3] at h2
                exact absurd h2 (by decide))]
              refine ⟨hnd, ?_, ?_⟩
              · intro w
                rw [hmem w, exists_vertex_append, hv]
                constructor
                · rintro ⟨hw, h⟩; exact ⟨hw, Or.inl h⟩
                · rintro ⟨hw, h | h⟩
                  · exact ⟨hw, h⟩
                  · have hwv : v = w := Option.some_injective _ h
                    subst hwv
                    exact ⟨hw, (((hmem v).mp hvc).2)⟩
              · refine hord.imp_of_mem ?_
                intro a b ha hb hab
                rw [firstEventIdx_append_of_found es e a ((hmem a).mp ha).2,
                  firstEventIdx_append_of_found es e b ((hmem b).mp hb).2]
                exact hab
            · rw [if_pos (by
                have h1 : v.isEmpty = false := by
                  rw [Bool.eq_false_iff]
                  intro hco
                  exact hvE ((String.isEmpty_iff v).mp hco)
                have h2 : (deliverAll (EventRecorder.mk' flow_name) es).component_executions.contains v = false := by
                  rw [Bool.eq_false_iff]
                  intro hco
                  exact hvc (List.elem_iff.mp hco)
                rw [h1, h2]
                decide)]
              have hnotin : ∀ x ∈ es, ¬x.vertex_id = some v := by
                intro x hx hcx
                exact hvc ((hmem v).mpr ⟨hvE, ⟨x, hx, hcx⟩⟩)
              refine ⟨?_, ?_, ?_⟩
              · rw [List.nodup_append]
                refine ⟨hnd, List.nodup_singleton v, ?_⟩
                intro a ha hb
                rcases List.mem_singleton.mp hb with rfl
                exact hvc ha
              · intro w
                rw [exists_vertex_append, hv]
                constructor
                · intro hw
                  rcases List.mem_append.mp hw with h | h
                  · obtain ⟨hw1, hw2⟩ := (hmem w).mp h
                    exact ⟨hw1, Or.inl hw2⟩
                  · rcases List.mem_singleton.mp h with rfl
                    exact ⟨hvE, Or.inr rfl⟩
                · rintro ⟨hw, h | h⟩
                  · exact List.mem_append.mpr (Or.inl ((hmem w).mpr ⟨hw, h⟩))
                  · have : v = w := Option.some_injective _ h
                    subst this
                    exact List.mem_append.mpr (Or.inr (List.mem_singleton.mpr rfl))
              · rw [List.pairwise_append]
                refine ⟨?_, List.pairwise_singleton _ _, ?_⟩
                · refine hord.imp_of_mem ?_
                  intro a b ha hb hab
                  rw [firstEventIdx_append_of_found es e a ((hmem a).mp ha).2,
                    firstEventIdx_append_of_found es e b ((hmem b).mp hb).2]
                  exact hab
                · intro a ha b hb
                  rcases List.mem_singleton.mp hb with rfl
                  rw [firstEventIdx_append_of_found es e a ((hmem a).mp ha).2,
                    firstEventIdx_append_new es e b hnotin hv]
                  exact firstEventIdx_lt_of_found es a ((hmem a).mp ha).2

/- ===================== Python string primitives for C8 ===================== -/

/-- Python whitespace, ASCII range (the unicode whitespace Python also strips
does not occur in the strings involved here). -/
def pyIsSpace (c : Char) : Bool :=
  c == ' ' || c == '\t' || c == '\n' || c == '\r' || c == '\x0b' || c == '\x0c'

/-- Embedding of Python `s.rstrip("/")`: drop every trailing slash. -/
def pyRstripSlash (s : String) : String :=
  ⟨(s.data.reverse.dropWhile (fun c => c == '/')).reverse⟩

/-- Embedding of Python `s.strip()`: drop leading and trailing whitespace. -/
def pyStrip (s : String) : String :=
  ⟨((s.data.dropWhile pyIsSpace).reverse.dropWhile pyIsSpace).reverse⟩

/-- Embedding of Python `s.split()`: split on whitespace runs, dropping
empty fields. -/
def pySplitWs (s : String) : List String :=
  ((s.data.splitOnP pyIsSpace).filter (fun l => !l.isEmpty)).map (fun l => ⟨l⟩)

/-- Fuel-indexed core of Python `str.replace` for a non-empty pattern: scan
left to right, replace non-overlapping occurrences, and continue scanning
after each inserted replacement.  The fuel bounds the number of scanned
positions; `pyReplace` instantiates it with the length of the scanned
string, which always suffices for a non-empty pattern. -/
def pyReplaceCore (pat rep : List Char) : Nat → List Char → List Char
  | 0, l => l
  | _ + 1, [] => []
  | fuel + 1, c :: rest =>
      if pat.isPrefixOf (c :: rest) then
        rep ++ pyReplaceCore pat rep fuel ((c :: rest).drop pat.length)
      else
        c :: pyReplaceCore pat rep fuel rest

/-- Embedding of Python `s.replace(pat, rep)` (the empty-pattern branch
matches Python's behaviour of inserting `rep` at every position). -/
def pyReplace (s pat rep : String) : String :=
  if pat.data.isEmpty then
    ⟨rep.data ++ (s.data.map (fun c => c :: rep.data)).flatten⟩
  else
    ⟨pyReplaceCore pat.data rep.data s.data.length s.data⟩

/- ===================== C8 helper lemmas ===================== -/

theorem pyReplaceCore_here (p : Char) (pt rep s : List Char) (fuel : Nat) :
    pyReplaceCore (p :: pt) rep (fuel + 1) ((p :: pt) ++ s) =
      rep ++ pyReplaceCore (p :: pt) rep fuel s := by
  show pyReplaceCore (p :: pt) rep (fuel + 1) (p :: (pt ++ s)) = _
  rw [pyReplaceCore]
  rw [if_pos (show (p :: pt).isPrefixOf (p :: (pt ++ s)) = true from
    List.isPrefixOf_iff_prefix.mpr (List.prefix_append (p :: pt) s))]
  congr 1
  rw [List.length_cons, List.drop_succ_cons, List.drop_left]

theorem pyReplaceCore_no_head (p : Char) (pt rep : List Char) :
    ∀ (l : List Char) (fuel : Nat),
      (∀ c ∈ l, (c == p) = false) →
      pyReplaceCore (p :: pt) rep fuel l = l := by
  intro l
  induction l with
  | nil => intro fuel h; cases fuel <;> rfl
  | cons c rest ih =>
      intro fuel h
      cases fuel with
      | zero => rfl
      | succ f =>
          rw [pyReplaceCore]
          have hnp : ¬(p :: pt).isPrefixOf (c :: rest) = true := by
            intro hpre
            obtain ⟨t, ht⟩ := List.isPrefixOf_iff_prefix.mp hpre
            have hpc : p = c := by
              have := congrArg List.head? ht
              simpa using this
            have hc := h c (List.mem_cons_self c rest)
            rw [← hpc] at hc
            simp at hc
          rw [if_neg hnp]
          rw [ih f (fun x hx => h x (List.mem_cons_of_mem _ hx))]

theorem getLast?_cons_of_ne_nil {α : Type} (d : α) (ds : List α) (h : ds ≠ []) :
    (d :: ds).getLast? = ds.getLast? := by
  cases ds with
  | nil => exact absurd rfl h
  | cons x xs => rw [List.getLast?_cons_cons]

theorem toDigitsCore_getLast? (b : Nat) :
    ∀ (fuel n : Nat) (ds : List Char), ds ≠ [] →
      (Nat.toDigitsCore b fuel n ds).getLast? = ds.getLast? := by
  intro fuel
  induction fuel with
  | zero => intro n ds _; rfl
  | succ f ih =>
      intro n ds h
      rw [Nat.toDigitsCore]
      split
      · exact getLast?_cons_of_ne_nil _ ds h
      · rw [ih (n / b) ((n % b).digitChar :: ds) (by simp)]
        exact getLast?_cons_of_ne_nil _ ds h

theorem toDigits_getLast? (b n : Nat) :
    (Nat.toDigits b n).getLast? = some (Nat.digitChar (n % b)) := by
  rw [Nat.toDigits, Nat.toDigitsCore]
  split
  · rfl
  · rw [toDigitsCore_getLast? b n (n / b) [(n % b).digitChar] (by simp)]
    rfl

theorem digitChar_ne_slash (k : Nat) : (Nat.digitChar k == '/') = false := by
  rcases Nat.lt_or_ge k 16 with h | h
  · interval_cases k <;> decide
  · have hstar : Nat.digitChar k = '*' := by
      unfold Nat.digitChar
      repeat rw [if_neg (by omega)]
    rw [hstar]
    decide

theorem repr_data_getLast? (n : Nat) :
    (Nat.repr n).data.getLast? = some (Nat.digitChar (n % 10)) := by
  show (Nat.toDigits 10 n).asString.data.getLast? = _
  rw [show (Nat.toDigits 10 n).asString.data = Nat.toDigits 10 n from rfl]
  exact toDigits_getLast? 10 n

theorem pyRstripSlash_eq_self (s : String) (c : Char)
    (h : s.data.getLast? = some c) (hc : (c == '/') = false) :
    pyRstripSlash s = s := by
  apply String.ext
  show (s.data.reverse.dropWhile (fun c => c == '/')).reverse = s.data
  have hh : s.data.reverse.head? = some c := by rw [List.head?_reverse]; exact h
  cases hrev : s.data.reverse with
  | nil => rw [hrev] at hh; cases hh
  | cons x xs =>
      rw [hrev] at hh
      have hx : x = c := by injection hh
      rw [List.dropWhile_cons, hx, hc]
      simp only [if_false, Bool.false_eq_true]
      rw [← hx, ← hrev, List.reverse_reverse]

/- ===================== SSE URL (config_utils) ===================== -/

/-- Python `x or y` on an optional port value: `None` and `0` are falsy. -/
def pyOrPort (a : Option Nat) (b : Nat) : Nat :=
  match a with
  | some v => if v = 0 then b else v
  | none => b

/-- The constant `ALL_INTERFACES_HOST` from `config_utils.py`. -/
def ALL_INTERFACES_HOST : String := "0.0.0.0"

/-- The environment read by `get_project_sse_url` and `get_url_by_os`: the
settings attributes (`none` models an absent attribute or `None`; absent and
`None` behave identically here), whether the process runs under WSL
(`platform.system() == "Linux"` with `"microsoft"` in the lowercased kernel
release), and the outcome of the `/usr/bin/hostname -I` subprocess: `none`
models an `OSError`, otherwise the return code and the decoded standard
output. -/
structure SseEnv where
  host : Option String
  runtime_port : Option Nat
  port : Option Nat
  is_wsl : Bool
  hostname_proc : Option (Int × String)
deriving Repr

/-- Embedding of `get_url_by_os`: under WSL with host `localhost` or
`127.0.0.1`, when `hostname -I` succeeds with nonempty output, replace
`http://host:port` in the URL with `http://wsl_ip:port`, `wsl_ip` being the
first whitespace-separated token of the output; otherwise return the URL
unchanged. -/
def get_url_by_os (env : SseEnv) (host : String) (port : Nat) (url : String) : String :=
  if env.is_wsl && (host == "localhost" || host == "127.0.0.1") then
    match env.hostname_proc with
    | none => url
    | some (rc, out) =>
        if rc == 0 && !(pyStrip out).isEmpty then
          let wsl_ip := (pySplitWs (pyStrip out)).headD ""
          pyReplace url ("http://" ++ host ++ ":" ++ Nat.repr port)
            ("http://" ++ wsl_ip ++ ":" ++ Nat.repr port)
        else url
  else url

/-- Embedding of `get_project_sse_url`: read host and ports from the
settings, substitute `localhost` for the bind address `0.0.0.0`, build
`http://host:port/api/v1/mcp/project/<id>/sse`, and hand the result to
`get_url_by_os`. -/
def get_project_sse_url (env : SseEnv) (project_id : String) : String :=
  let server_host := env.host.getD "localhost"
  let server_port := pyOrPort env.runtime_port (pyOrPort env.port 7860)
  let host := if server_host == ALL_INTERFACES_HOST then "localhost" else server_host
  let port := server_port
  let base_url := pyRstripSlash ("http://" ++ host ++ ":" ++ Nat.repr port)
  let project_sse_url := base_url ++ "/api/v1/mcp/project/" ++ project_id ++ "/sse"
  get_url_by_os env host port project_sse_url

/- ===================== C8 spec-side definitions ===================== -/

/-- Spec-side (C8): the host the claim predicts before any WSL rewrite:
`localhost` when the configured host is `0.0.0.0`, else the configured
host. -/
def sseHostSpec (env : SseEnv) : String :=
  if env.host.getD "localhost" = "0.0.0.0" then "localhost" else env.host.getD "localhost"

/-- Spec-side (C8, amended): the configured port when set and nonzero, else
7860. -/
def ssePortCfg (env : SseEnv) : Nat :=
  match env.port with
  | some p => if p = 0 then 7860 else p
  | none => 7860

/-- Spec-side (C8, amended): the runtime-detected port when set and nonzero,
else the configured port when set and nonzero, else 7860. -/
def ssePortSpec (env : SseEnv) : Nat :=
  match env.runtime_port with
  | some rp => if rp = 0 then ssePortCfg env else rp
  | none => ssePortCfg env

/-- Spec-side (C8, amended): whether the WSL host rewrite fires: WSL, host
`localhost` or `127.0.0.1`, and a successful nonempty `hostname -I`. -/
def sseWslRewriteActive (env : SseEnv) : Bool :=
  env.is_wsl && (sseHostSpec env == "localhost" || sseHostSpec env == "127.0.0.1") &&
    (match env.hostname_proc with
     | some (rc, out) => rc == 0 && !(pyStrip out).isEmpty
     | none => false)

/-- Spec-side (C8, amended): the first IP address reported by
`hostname -I`. -/
def sseWslIp (env : SseEnv) : String :=
  match env.hostname_proc with
  | some (_, out) => (pySplitWs (pyStrip out)).headD ""
  | none => ""

/-- Spec-side (C8, amended): the URL the amended claim predicts. -/
def sseUrlSpec (env : SseEnv) (project_id : String) : String :=
  let h := if sseWslRewriteActive env then sseWslIp env else sseHostSpec env
  "http://" ++ h ++ ":" ++ Nat.repr (ssePortSpec env) ++ "/api/v1/mcp/project/" ++
    project_id ++ "/sse"

/-- Characters of `str(uuid)`: lowercase hex digits and dashes. -/
def uuidChar (c : Char) : Bool := "0123456789abcdef-".data.contains c

theorem uuidChar_ne_h (c : Char) (h : uuidChar c = true) : (c == 'h') = false := by
  rcases eq_or_ne c 'h' with rfl | hne
  · exact absurd h (by decide)
  · simpa using hne

/- ===================== C8 reduction lemmas ===================== -/

theorem get_url_by_os_not_wsl (env : SseEnv) (host : String) (port : Nat) (url : String)
    (h : (env.is_wsl && (host == "localhost" || host == "127.0.0.1")) = false) :
    get_url_by_os env host port url = url := by
  unfold get_url_by_os
  rw [h]
  rfl

theorem get_url_by_os_proc_none (env : SseEnv) (host : String) (port : Nat) (url : String)
    (hproc : env.hostname_proc = none) :
    get_url_by_os env host port url = url := by
  unfold get_url_by_os
  rw [hproc]
  split <;> rfl

theorem get_url_by_os_proc_fail (env : SseEnv) (host : String) (port : Nat) (url : String)
    (rc : Int) (out : String) (hproc : env.hostname_proc = some (rc, out))
    (hok : (rc == 0 && !(pyStrip out).isEmpty) = false) :
    get_url_by_os env host port url = url := by
  unfold get_url_by_os
  rw [hproc]
  split
  · simp only [hok, Bool.false_eq_true, if_false]
  · rfl

theorem get_url_by_os_wsl (env : SseEnv) (host : String) (port : Nat) (url : String)
    (rc : Int) (out : String)
    (hw : (env.is_wsl && (host == "localhost" || host == "127.0.0.1")) = true)
    (hproc : env.hostname_proc = some (rc, out))
    (hok : (rc == 0 && !(pyStrip out).isEmpty) = true) :
    get_url_by_os env host port url =
      pyReplace url ("http://" ++ host ++ ":" ++ Nat.repr port)
        ("http://" ++ (pySplitWs (pyStrip out)).headD "" ++ ":" ++ Nat.repr port) := by
  unfold get_url_by_os
  rw [hw, hproc]
  simp only [hok, if_true]

theorem pyReplaceCore_full (patTail S rep : List Char)
    (hS : ∀ c ∈ S, (c == 'h') = false) :
    pyReplaceCore ('h' :: patTail) rep (('h' :: patTail) ++ S).length
      (('h' :: patTail) ++ S) = rep ++ S := by
  rw [List.length_append, List.length_cons]
  rw [show patTail.length + 1 + S.length = (patTail.length + S.length) + 1 from by omega]
  rw [pyReplaceCore_here]
  rw [pyReplaceCore_no_head 'h' patTail rep S (patTail.length + S.length) hS]

theorem pyReplace_url (url pat rep : String) (patTail S : List Char)
    (hpat : pat.data = 'h' :: patTail)
    (hurl : url.data = pat.data ++ S)
    (hS : ∀ c ∈ S, (c == 'h') = false) :
    pyReplace url pat rep = ⟨rep.data ++ S⟩ := by
  rw [hpat] at hurl
  unfold pyReplace
  rw [hpat]
  rw [if_neg (by simp)]
  show String.mk _ = String.mk _
  congr 1
  rw [hurl]
  exact pyReplaceCore_full patTail S rep.data hS

theorem host_eq_spec (env : SseEnv) :
    (if env.host.getD "localhost" == ALL_INTERFACES_HOST then "localhost"
     else env.host.getD "localhost") = sseHostSpec env := by
  unfold sseHostSpec ALL_INTERFACES_HOST
  by_cases h : env.host.getD "localhost" = "0.0.0.0"
  · rw [if_pos (by simp [h]), if_pos h]
  · rw [if_neg (by simp [h]), if_neg h]

theorem base_url_id (host : String) (port : Nat) :
    pyRstripSlash ("http://" ++ host ++ ":" ++ Nat.repr port) =
      "http://" ++ host ++ ":" ++ Nat.repr port := by
  apply pyRstripSlash_eq_self _ (Nat.digitChar (port % 10))
  · rw [String.data_append, List.getLast?_append, repr_data_getLast?]
    rfl
  · exact digitChar_ne_slash _

theorem suffix_no_h (project_id : String)
    (hpid : ∀ c ∈ project_id.data, uuidChar c = true) :
    ∀ c ∈ ("/api/v1/mcp/project/" : String).data ++
        (project_id.data ++ ("/sse" : String).data), (c == 'h') = false := by
  intro c hc
  rcases List.mem_append.mp hc with hc | hc
  · exact (by decide :
      ∀ x ∈ ("/api/v1/mcp/project/" : String).data, (x == 'h') = false) c hc
  · rcases List.mem_append.mp hc with hc | hc
    · exact uuidChar_ne_h c (hpid c hc)
    · exact (by decide : ∀ x ∈ ("/sse" : String).data, (x == 'h') = false) c hc

/- ===================== C8 ===================== -/

/-- C8 (amended): for every environment and every project id made of UUID
characters (lowercase hex digits and dashes), the URL produced by
`get_project_sse_url` is exactly
`http://h:p/api/v1/mcp/project/<project_id>/sse` — so the path always ends
in `/api/v1/mcp/project/<project_id>/sse` — where `p` is the
runtime-detected port when set and nonzero, else the configured port when
set and nonzero, else 7860; and `h` is `localhost` when the configured host
is `0.0.0.0`, else the configured host — except that on WSL, when that host
is `localhost` or `127.0.0.1` and the `hostname -I` lookup succeeds with
nonempty output, `h` is the first WSL IP address the lookup reports. -/
theorem C8_amended_sse_url (env : SseEnv) (project_id : String)
    (hpid : ∀ c ∈ project_id.data, uuidChar c = true) :
    get_project_sse_url env project_id = sseUrlSpec env project_id := by
  simp only [get_project_sse_url]
  rw [host_eq_spec env]
  rw [show pyOrPort env.runtime_port (pyOrPort env.port 7860) = ssePortSpec env from rfl]
  rw [base_url_id]
  by_cases hw : (env.is_wsl &&
      (sseHostSpec env == "localhost" || sseHostSpec env == "127.0.0.1")) = true
  · cases hproc : env.hostname_proc with
    | none =>
        rw [get_url_by_os_proc_none env _ _ _ hproc]
        have hact : sseWslRewriteActive env = false := by
          rw [sseWslRewriteActive, hproc]
          simp
        apply String.ext
        simp [sseUrlSpec, hact, String.data_append, List.append_assoc]
    | some pr =>
        obtain ⟨rc, out⟩ := pr
        by_cases hok : (rc == 0 && !(pyStrip out).isEmpty) = true
        · have hpat : ("http://" ++ sseHostSpec env ++ ":" ++ Nat.repr (ssePortSpec env)).data
              = 'h' :: (['t','t','p',':','/','/'] ++ ((sseHostSpec env).data ++
                ([':'] ++ (Nat.repr (ssePortSpec env)).data))) := by
            rw [String.data_append, String.data_append, String.data_append]
            rw [show ("http://" : String).data = 'h' :: ['t','t','p',':','/','/'] from rfl]
            rw [show (":" : String).data = [':'] from rfl]
            simp [List.append_assoc]
          have hurl : (("http://" ++ sseHostSpec env ++ ":" ++ Nat.repr (ssePortSpec env))
                ++ "/api/v1/mcp/project/" ++ project_id ++ "/sse").data
              = ("http://" ++ sseHostSpec env ++ ":" ++ Nat.repr (ssePortSpec env)).data
                ++ (("/api/v1/mcp/project/" : String).data ++
                    (project_id.data ++ ("/sse" : String).data)) := by
            simp [String.data_append, List.append_assoc]
          have hact : sseWslRewriteActive env = true := by
            rw [sseWslRewriteActive, hproc]
            simp [hw, hok]
          have hwsl : sseWslIp env = (pySplitWs (pyStrip out)).headD "" := by
            rw [sseWslIp, hproc]
          rw [get_url_by_os_wsl env _ _ _ rc out hw hproc hok]
          rw [pyReplace_url _ _ _ _ _ hpat hurl (suffix_no_h project_id hpid)]
          apply String.ext
          simp [sseUrlSpec, hact, hwsl, String.data_append, List.append_assoc]
        · rw [get_url_by_os_proc_fail env _ _ _ rc out hproc (Bool.eq_false_iff.mpr hok)]
          have hact : sseWslRewriteActive env = false := by
            rw [sseWslRewriteActive, hproc]
            simp [Bool.eq_false_iff.mpr hok]
          apply String.ext
          simp [sseUrlSpec, hact, String.data_append, List.append_assoc]
  · rw [get_url_by_os_not_wsl env _ _ _ (Bool.eq_false_iff.mpr hw)]
    have hact : sseWslRewriteActive env = false := by
      rw [sseWslRewriteActive, Bool.eq_false_iff.mpr hw, Bool.false_and]
    apply String.ext
    simp [sseUrlSpec, hact, String.data_append, List.append_assoc]

/-- C8 counterexample input: WSL, configured host `localhost`, configured
port 7860, `hostname -I` succeeding and reporting `172.20.0.2`. -/
def c8Env : SseEnv :=
  { host := some "localhost", runtime_port := none, port := some 7860,
    is_wsl := true, hostname_proc := some (0, "172.20.0.2 \n") }

/-- C8 counterexample project id. -/
def c8Pid : String := "00000000-0000-0000-0000-000000000000"

/-- C8 as stated is false at a concrete input: the configured host is
`"localhost"` (not `"0.0.0.0"`), so the claim says the produced URL uses the
configured host, i.e. equals
`http://localhost:7860/api/v1/mcp/project/<id>/sse`; but under WSL with a
successful `hostname -I`, `get_project_sse_url` rewrites the host to the
detected WSL IP address instead. -/
theorem C8_counterexample :
    c8Env.host = some "localhost"
    ∧ get_project_sse_url c8Env c8Pid ≠
        "http://localhost:7860/api/v1/mcp/project/00000000-0000-0000-0000-000000000000/sse"
    ∧ get_project_sse_url c8Env c8Pid =
        "http://172.20.0.2:7860/api/v1/mcp/project/00000000-0000-0000-0000-000000000000/sse" := by
  refine ⟨rfl, by decide, by decide⟩

/-- Witness for the amended C8 theorem at a concrete input, discharging its
hypothesis by evaluation. -/
theorem C8_amended_sse_url_witness :
    get_project_sse_url c8Env c8Pid = sseUrlSpec c8Env c8Pid :=
  C8_amended_sse_url c8Env c8Pid (by decide)
